import Mathlib

/-!
Shallow embedding of lefticus/handy_tools.

Modelled files:
* src/include/lefticus/tools/simple_stack_vector.hpp —
  `simple_stack_vector<Contained, Capacity>`: a fixed-capacity vector backed by
  a `std::array<Contained, Capacity>` field `data_` plus a `std::size_t` field
  `size_`.  The backing array is modelled as a `List` whose length equals the
  capacity (well-formedness predicate `WF`); `std::size_t` is modelled as `Nat`
  with explicit wrap modulo `2 ^ 64` where the source performs an unsigned
  decrement that can underflow (`pop_back`).  Fallible operations (the source
  throws `std::length_error` / `std::out_of_range`) return `Except`.
* src/include/lefticus/tools/non_promoting_ints.hpp — the `int_np<Type>`
  integral wrapper; its stored machine integer is modelled as `Int` with C++
  truncated division `Int.tdiv` / remainder `Int.tmod`.
-/

/-- The two exception kinds thrown by `simple_stack_vector`:
`std::length_error` (capacity exceeded) and `std::out_of_range`. -/
inductive CppError where
  | length_error : CppError
  | out_of_range : CppError
deriving DecidableEq, Repr

/-- Number of values of the 64-bit `std::size_t`, the `size_type` of
`simple_stack_vector` on the modelled platform: unsigned arithmetic on
`size_` wraps modulo this constant. -/
def sizeTypeCard : Nat := 2 ^ 64

/-- `simple_stack_vector<Contained, Capacity>` state: the backing
`std::array<Contained, Capacity> data_` (a list whose length is the capacity,
see `WF`) and the current element count `size_`. -/
structure simple_stack_vector (Contained : Type) (Capacity : Nat) where
  data_ : List Contained
  size_ : Nat
deriving DecidableEq, Repr

namespace simple_stack_vector

variable {Contained : Type} {Capacity : Nat}

/-- Well-formedness: the backing `std::array` has exactly `Capacity` slots. -/
def WF (v : simple_stack_vector Contained Capacity) : Prop :=
  v.data_.length = Capacity

instance (v : simple_stack_vector Contained Capacity) : Decidable v.WF := by
  unfold WF; infer_instance

/-- The default constructor: `data_{}` value-initializes all `Capacity` slots
(each holds `Contained{}`, modelled by `default`) and `size_{}` is zero. -/
def mkDefault (Contained : Type) [Inhabited Contained] (Capacity : Nat) :
    simple_stack_vector Contained Capacity :=
  { data_ := List.replicate Capacity default, size_ := 0 }

/-- `operator[](idx)`: unchecked read `data_[idx]` of the backing array. -/
def opIndex [Inhabited Contained] (v : simple_stack_vector Contained Capacity)
    (idx : Nat) : Contained :=
  v.data_.getD idx default

/-- `size()`: returns `size_`. -/
def size (v : simple_stack_vector Contained Capacity) : Nat := v.size_

/-- `capacity()` (and `max_size()`): a static function of the type, returning
the template parameter `Capacity`; it does not read any instance state. -/
def capacity (Contained : Type) (Capacity : Nat) : Nat := Capacity

/-- `empty()`: `size_ == 0`. -/
def isEmpty (v : simple_stack_vector Contained Capacity) : Bool :=
  v.size_ == 0

/-- `front()`: returns `data_.front()`, the content of slot `0`. -/
def front [Inhabited Contained] (v : simple_stack_vector Contained Capacity) :
    Contained :=
  v.data_.getD 0 default

/-- `back()`: returns `data_.back()` — the content of slot `Capacity - 1`, the
last slot of the backing `std::array`, NOT slot `size_ - 1`. -/
def back [Inhabited Contained] (v : simple_stack_vector Contained Capacity) :
    Contained :=
  v.data_.getD (Capacity - 1) default

/-- Forward iteration `begin()`/`end()`: `begin()` is `data_.begin()` and
`end()` is `data_.begin() + size_`, so traversal yields the contents of slots
`[0, size_)` in index order. -/
def toListLive (v : simple_stack_vector Contained Capacity) : List Contained :=
  v.data_.take v.size_

/-- `push_back(value)`: throws `length_error` when `size_ == Capacity`;
otherwise assigns into slot `size_`, increments `size_`, and returns (the
content of) the newly stored slot together with the new state. -/
def push_back [Inhabited Contained] (v : simple_stack_vector Contained Capacity)
    (value : Contained) :
    Except CppError (simple_stack_vector Contained Capacity × Contained) :=
  if v.size_ = Capacity then .error .length_error
  else
    let d := v.data_.set v.size_ value
    .ok ({ data_ := d, size_ := v.size_ + 1 }, d.getD v.size_ default)

/-- `emplace_back(param...)`: same capacity check as `push_back`; constructs
`value_type{param...}` (here: the already-constructed argument) and assigns it
into slot `size_`, then increments `size_`. -/
def emplace_back [Inhabited Contained]
    (v : simple_stack_vector Contained Capacity) (value : Contained) :
    Except CppError (simple_stack_vector Contained Capacity × Contained) :=
  if v.size_ = Capacity then .error .length_error
  else
    let d := v.data_.set v.size_ value
    .ok ({ data_ := d, size_ := v.size_ + 1 }, d.getD v.size_ default)

/-- `at(idx)`: throws `out_of_range` when `idx >= size_`, otherwise returns
`data_[idx]`.  It mutates nothing (the source member only reads). -/
def at_ [Inhabited Contained] (v : simple_stack_vector Contained Capacity)
    (idx : Nat) : Except CppError Contained :=
  if v.size_ ≤ idx then .error .out_of_range
  else .ok (v.data_.getD idx default)

/-- `clear()`: sets `size_ = 0`; the backing array is untouched. -/
def clear (v : simple_stack_vector Contained Capacity) :
    simple_stack_vector Contained Capacity :=
  { v with size_ := 0 }

/-- `reserve(new_capacity)`: throws `length_error` when
`new_capacity > Capacity`, otherwise does nothing. -/
def reserve (v : simple_stack_vector Contained Capacity) (new_capacity : Nat) :
    Except CppError (simple_stack_vector Contained Capacity) :=
  if new_capacity > Capacity then .error .length_error else .ok v

/-- `pop_back()`: `--size_`, a `noexcept` unchecked unsigned decrement; on
`size_ == 0` it wraps modulo `2 ^ 64` to `2 ^ 64 - 1`. -/
def pop_back (v : simple_stack_vector Contained Capacity) :
    simple_stack_vector Contained Capacity :=
  { v with size_ := (v.size_ + (sizeTypeCard - 1)) % sizeTypeCard }

/-- `shrink_to_fit()`: a no-op. -/
def shrink_to_fit (v : simple_stack_vector Contained Capacity) :
    simple_stack_vector Contained Capacity :=
  v

/-- Helper for `resize` growth: the loop `while (old_end != new_end)` assigns a
default value into each slot starting at index `lo`, `count` times, advancing
one slot per iteration. -/
def setDefaults [Inhabited Contained] (d : List Contained) (lo : Nat) :
    Nat → List Contained
  | 0 => d
  | count + 1 => setDefaults (d.set lo default) (lo + 1) count

/-- `resize(new_size)`: if `new_size <= size_`, just set `size_ = new_size`;
otherwise throw `length_error` when `new_size > Capacity`, else overwrite the
slots `[size_, new_size)` and set `size_ = new_size`.

The source writes `*old_end = data_type{};` in the overwrite loop — assigning a
whole `std::array<value_type, Capacity>` to a single `value_type` slot, which
is ill-formed and fails to compile whenever the growth path is instantiated
(e.g. for `value_type = int`).  The documented intent is `value_type{}`; this
model performs that intended per-slot default overwrite (`setDefaults`), the
rest of the control flow being verbatim from the source. -/
def resize [Inhabited Contained] (v : simple_stack_vector Contained Capacity)
    (new_size : Nat) :
    Except CppError (simple_stack_vector Contained Capacity) :=
  if new_size ≤ v.size_ then .ok { v with size_ := new_size }
  else if new_size > Capacity then .error .length_error
  else .ok { data_ := setDefaults v.data_ v.size_ (new_size - v.size_),
             size_ := new_size }

/-- The `initializer_list` / iterator-range constructors: starting from a
given state, `push_back` each value in order, propagating the first failure. -/
def push_each [Inhabited Contained] (v : simple_stack_vector Contained Capacity) :
    List Contained → Except CppError (simple_stack_vector Contained Capacity)
  | [] => .ok v
  | x :: xs =>
    match v.push_back x with
    | .error e => .error e
    | .ok (v', _) => push_each v' xs

end simple_stack_vector

/-- Free `operator==` over possibly different capacities: sizes must match,
then the loop compares `lhs[idx] != rhs[idx]` for `idx < lhs.size()` via the
unchecked `operator[]`. -/
def ssv_beq {Contained : Type} [DecidableEq Contained] [Inhabited Contained]
    {LHSSize RHSSize : Nat} (lhs : simple_stack_vector Contained LHSSize)
    (rhs : simple_stack_vector Contained RHSSize) : Bool :=
  if lhs.size_ = rhs.size_ then
    (List.range lhs.size_).all
      (fun idx => lhs.opIndex idx == rhs.opIndex idx)
  else false

/-- `int_np<Type>` from non_promoting_ints.hpp: wraps a single machine
integer, modelled as `Int`. -/
structure int_np where
  value : Int
deriving DecidableEq, Repr

namespace int_np

/-- `operator%=(const std::integral auto rhs)` (lines 155-159): executes
`value = static_cast<value_type>(value / rhs)` — C++ truncated division. -/
def modAssignIntegral (lhs : int_np) (rhs : Int) : int_np :=
  { value := Int.tdiv lhs.value rhs }

/-- `operator%=(const int_np rhs)` (lines 202-206): executes
`value = static_cast<value_type>(value / rhs.value)` — truncated division. -/
def modAssignNp (lhs : int_np) (rhs : int_np) : int_np :=
  { value := Int.tdiv lhs.value rhs.value }

/-- `operator/=` overloads (lines 149-153 and 196-200) for comparison:
also truncated division. -/
def divAssignNp (lhs : int_np) (rhs : int_np) : int_np :=
  { value := Int.tdiv lhs.value rhs.value }

end int_np

/-! ## Claim theorems -/

/-- C1: if `size_ == Capacity`, `push_back` fails with the capacity-exceeded
condition (`std::length_error`) and — the check preceding any mutation — no
modified state is produced; if `size_ < Capacity`, it assigns the value into
slot `size_`, increments `size_` by one, leaves every other slot unchanged,
and returns the newly stored element. -/
theorem push_back_full_fails_and_otherwise_appends
    {Contained : Type} [Inhabited Contained] {Capacity : Nat}
    (v : simple_stack_vector Contained Capacity) (x : Contained) :
    (v.size_ = Capacity → v.push_back x = .error .length_error) ∧
    (v.WF → v.size_ < Capacity →
      ∃ v', v.push_back x = .ok (v', x) ∧
        v'.size_ = v.size_ + 1 ∧
        v'.opIndex v.size_ = x ∧
        ∀ i, i ≠ v.size_ → v'.opIndex i = v.opIndex i) := by
  constructor
  · intro h
    simp [simple_stack_vector.push_back, h]
  · intro hwf hlt
    have hlen : v.size_ < v.data_.length := by
      rw [hwf]; exact hlt
    refine ⟨{ data_ := v.data_.set v.size_ x, size_ := v.size_ + 1 }, ?_, rfl,
      ?_, ?_⟩
    · simp [simple_stack_vector.push_back, Nat.ne_of_lt hlt,
        List.getD_eq_getElem?_getD, List.getElem?_set_self hlen]
    · simp [simple_stack_vector.opIndex, List.getD_eq_getElem?_getD,
        List.getElem?_set_self hlen]
    · intro i hi
      simp [simple_stack_vector.opIndex, List.getD_eq_getElem?_getD,
        List.getElem?_set_ne (Ne.symm hi)]

/-- Witness for C1 at concrete inputs: a full capacity-2 container rejects a
push, and a one-element container accepts it. -/
theorem push_back_spec_witness :
    ((⟨[0, 0], 2⟩ : simple_stack_vector Int 2).push_back 5
        = .error .length_error) ∧
    ∃ v', (⟨[7, 0], 1⟩ : simple_stack_vector Int 2).push_back 5 = .ok (v', 5) ∧
      v'.size_ = 1 + 1 ∧ v'.opIndex 1 = 5 ∧
      ∀ i, i ≠ 1 →
        v'.opIndex i = (⟨[7, 0], 1⟩ : simple_stack_vector Int 2).opIndex i :=
  ⟨(push_back_full_fails_and_otherwise_appends
      (⟨[0, 0], 2⟩ : simple_stack_vector Int 2) 5).1 rfl,
   (push_back_full_fails_and_otherwise_appends
      (⟨[7, 0], 1⟩ : simple_stack_vector Int 2) 5).2 (by decide) (by decide)⟩

/-- C4: both compound modulo-assignment overloads of `int_np` store the
truncated quotient `old_x / y`, not the remainder: for every `x` and non-zero
`y` the stored value is `Int.tdiv x y`, and there are inputs (7 %= 2) where
this differs from the remainder `Int.tmod x y`. -/
theorem modAssign_performs_division (x y : Int) (hy : y ≠ 0) :
    ((int_np.mk x).modAssignIntegral y).value = Int.tdiv x y ∧
    ((int_np.mk x).modAssignNp (int_np.mk y)).value = Int.tdiv x y ∧
    ∃ a b : Int, b ≠ 0 ∧
      ((int_np.mk a).modAssignIntegral b).value ≠ Int.tmod a b ∧
      ((int_np.mk a).modAssignNp (int_np.mk b)).value ≠ Int.tmod a b :=
  ⟨rfl, rfl, 7, 2, by decide, by decide, by decide⟩

/-- Witness for C4 at x = 7, y = 2: `7 %= 2` stores 3 (= 7 / 2), not 1. -/
theorem modAssign_witness :
    (2 : Int) ≠ 0 ∧ ((int_np.mk 7).modAssignIntegral 2).value = Int.tdiv 7 2 :=
  ⟨by decide, (modAssign_performs_division 7 2 (by decide)).1⟩

/-- C5: `at(idx)` fails with `out_of_range` exactly when `idx >= size_`
(including `idx = size()` and `idx > Capacity`), and for `idx < size_` it
returns the live element `data_[idx]` without error.  `at` is a pure read in
the model (it returns no new state), reflecting that the source member mutates
nothing. -/
theorem at_checked_access_spec {Contained : Type} [Inhabited Contained]
    {Capacity : Nat} (v : simple_stack_vector Contained Capacity) (idx : Nat) :
    (v.at_ idx = .error .out_of_range ↔ v.size_ ≤ idx) ∧
    (idx < v.size_ → v.at_ idx = .ok (v.opIndex idx)) := by
  constructor
  · unfold simple_stack_vector.at_
    split
    · next h => simp [h]
    · next h => simp [h]
  · intro h
    simp [simple_stack_vector.at_, simple_stack_vector.opIndex, Nat.not_le.2 h]

/-- Witness for C5: on a capacity-2 container of size 1, index 1 is rejected
as out of range and index 0 returns the stored 7. -/
theorem at_spec_witness :
    ((⟨[7, 0], 1⟩ : simple_stack_vector Int 2).at_ 1
        = .error .out_of_range) ∧
    ((⟨[7, 0], 1⟩ : simple_stack_vector Int 2).at_ 0 = .ok 7) :=
  ⟨(at_checked_access_spec (⟨[7, 0], 1⟩ : simple_stack_vector Int 2) 1).1.2
      (by decide),
   (at_checked_access_spec (⟨[7, 0], 1⟩ : simple_stack_vector Int 2) 0).2
      (by decide)⟩

/-- C10: `pop_back()` on an empty container performs no check and raises no
error (it is total in the model, as the `noexcept` source decrements
unconditionally): the unsigned `size_` wraps modulo `2 ^ 64` to `2 ^ 64 - 1`,
violating the `size_ ≤ Capacity` invariant whenever
`Capacity < 2 ^ 64 - 1`. -/
theorem pop_back_empty_wraps {Contained : Type} {Capacity : Nat}
    (v : simple_stack_vector Contained Capacity)
    (h0 : v.size_ = 0) (hC : Capacity < 2 ^ 64 - 1) :
    (v.pop_back).size_ = 2 ^ 64 - 1 ∧ ¬ (v.pop_back).size_ ≤ Capacity := by
  have h1 : (v.pop_back).size_ = 2 ^ 64 - 1 := by
    simp [simple_stack_vector.pop_back, sizeTypeCard, h0]
  exact ⟨h1, by rw [h1]; omega⟩

/-- Witness for C10: popping a default-constructed (empty) capacity-3
container of integers wraps `size_` to `2 ^ 64 - 1`. -/
theorem pop_back_empty_wraps_witness :
    ((simple_stack_vector.mkDefault Int 3).pop_back).size_ = 2 ^ 64 - 1 ∧
    ¬ ((simple_stack_vector.mkDefault Int 3).pop_back).size_ ≤ 3 :=
  pop_back_empty_wraps (simple_stack_vector.mkDefault Int 3) rfl (by decide)

/-! ## Helper lemmas shared between claims -/

theorem sizeTypeCard_eq : sizeTypeCard = 18446744073709551616 := by
  unfold sizeTypeCard
  norm_num

theorem pop_back_size {Contained : Type} {Capacity : Nat}
    (v : simple_stack_vector Contained Capacity) :
    (v.pop_back).size_
      = (v.size_ + (18446744073709551616 - 1)) % 18446744073709551616 := by
  unfold simple_stack_vector.pop_back
  rw [sizeTypeCard_eq]

theorem pop_back_data {Contained : Type} {Capacity : Nat}
    (v : simple_stack_vector Contained Capacity) :
    (v.pop_back).data_ = v.data_ := by
  unfold simple_stack_vector.pop_back
  rfl

theorem setDefaults_length {Contained : Type} [Inhabited Contained]
    (d : List Contained) (lo n : Nat) :
    (simple_stack_vector.setDefaults d lo n).length = d.length := by
  induction n generalizing d lo with
  | zero => rfl
  | succ n ih => simp [simple_stack_vector.setDefaults, ih]

theorem setDefaults_getElem? {Contained : Type} [Inhabited Contained]
    (d : List Contained) (lo n i : Nat) :
    (simple_stack_vector.setDefaults d lo n)[i]? =
      if lo ≤ i ∧ i < lo + n ∧ i < d.length then some default else d[i]? := by
  induction n generalizing d lo with
  | zero =>
    rw [if_neg (by omega)]
    rfl
  | succ n ih =>
    have hstep : simple_stack_vector.setDefaults d lo (n + 1)
        = simple_stack_vector.setDefaults (d.set lo default) (lo + 1) n := rfl
    rw [hstep, ih, List.length_set]
    by_cases hio : i = lo
    · subst hio
      rw [if_neg (by omega), List.getElem?_set]
      rw [if_pos rfl]
      by_cases hl : i < d.length
      · rw [if_pos hl, if_pos (by omega)]
      · rw [if_neg hl, if_neg (by omega)]
        exact (List.getElem?_eq_none (by omega)).symm
    · rw [List.getElem?_set_ne (fun h => hio h.symm)]
      by_cases hcond : lo + 1 ≤ i ∧ i < lo + 1 + n ∧ i < d.length
      · rw [if_pos hcond, if_pos (by omega)]
      · rw [if_neg hcond, if_neg (by omega)]

theorem take_set_push {Contained : Type} (d : List Contained) (s : Nat)
    (x : Contained) (hlen : s < d.length) :
    (d.set s x).take (s + 1) = d.take s ++ [x] := by
  rw [List.take_succ, List.getElem?_set_self hlen, List.set_take,
    List.set_eq_of_length_le (by simp [List.length_take])]
  rfl

theorem push_each_ok {Contained : Type} [Inhabited Contained] {Capacity : Nat}
    (xs : List Contained) (v : simple_stack_vector Contained Capacity)
    (hwf : v.WF) (h : v.size_ + xs.length ≤ Capacity) :
    ∃ v', simple_stack_vector.push_each v xs = .ok v' ∧ v'.WF ∧
      v'.size_ = v.size_ + xs.length ∧
      v'.toListLive = v.toListLive ++ xs := by
  induction xs generalizing v with
  | nil => exact ⟨v, rfl, hwf, by simp, by simp⟩
  | cons x xs ih =>
    have hlt : v.size_ < Capacity := by
      simp only [List.length_cons] at h; omega
    have hlen : v.size_ < v.data_.length := by rw [hwf]; exact hlt
    have hpush : v.push_back x
        = .ok ({ data_ := v.data_.set v.size_ x, size_ := v.size_ + 1 },
          (v.data_.set v.size_ x).getD v.size_ default) := by
      simp [simple_stack_vector.push_back, Nat.ne_of_lt hlt]
    have hwf1 : simple_stack_vector.WF
        ({ data_ := v.data_.set v.size_ x, size_ := v.size_ + 1 } :
          simple_stack_vector Contained Capacity) := by
      simp [simple_stack_vector.WF]
      exact hwf
    have hcap1 : ({ data_ := v.data_.set v.size_ x, size_ := v.size_ + 1 } :
        simple_stack_vector Contained Capacity).size_ + xs.length
          ≤ Capacity := by
      simp only [List.length_cons] at h
      simp only []
      omega
    obtain ⟨v', hv', hwf', hsz', hlist'⟩ := ih _ hwf1 hcap1
    refine ⟨v', ?_, hwf', ?_, ?_⟩
    · simp only [simple_stack_vector.push_each, hpush]
      exact hv'
    · rw [hsz']
      simp only [List.length_cons]
      omega
    · rw [hlist']
      simp only [simple_stack_vector.toListLive]
      rw [take_set_push v.data_ v.size_ x hlen]
      simp

/-! ## Remaining claim theorems -/

/-- C3: `front()` does return the first live element (slot 0), but `back()`
returns `data_.back()`, the content of the last storage slot `Capacity - 1`,
not the last live element at index `size_ - 1`: on a capacity-3 container of
integers holding the single live value 5, `back()` yields the stale default 0
while the last live element is 5. -/
theorem back_reads_last_capacity_slot :
    ((⟨[5, 0, 0], 1⟩ : simple_stack_vector Int 3).front = 5) ∧
    ((⟨[5, 0, 0], 1⟩ : simple_stack_vector Int 3).back = 0) ∧
    ((⟨[5, 0, 0], 1⟩ : simple_stack_vector Int 3).opIndex
        ((⟨[5, 0, 0], 1⟩ : simple_stack_vector Int 3).size_ - 1) = 5) ∧
    (⟨[5, 0, 0], 1⟩ : simple_stack_vector Int 3).back ≠
      (⟨[5, 0, 0], 1⟩ : simple_stack_vector Int 3).opIndex
        ((⟨[5, 0, 0], 1⟩ : simple_stack_vector Int 3).size_ - 1) := by
  decide

/-- C7: the free `operator==` compares true exactly when the live lengths
agree and every live element agrees index-wise; the two capacities `LHSSize`
and `RHSSize` are arbitrary and absent from the right-hand side, so they play
no role in the result. -/
theorem ssv_beq_iff_sizes_and_elements {Contained : Type}
    [DecidableEq Contained] [Inhabited Contained] {LHSSize RHSSize : Nat}
    (lhs : simple_stack_vector Contained LHSSize)
    (rhs : simple_stack_vector Contained RHSSize) :
    ssv_beq lhs rhs = true ↔
      lhs.size_ = rhs.size_ ∧
        ∀ i, i < lhs.size_ → lhs.opIndex i = rhs.opIndex i := by
  unfold ssv_beq
  split
  · next h => simp [h, List.mem_range]
  · next h => simp [h]

/-- Witness for C7, the spec scenario: [1,2,3] at capacity 5 equals [1,2,3]
at capacity 8, and differs from [1,2] and from [1,2,4]. -/
theorem ssv_beq_witness :
    ssv_beq (⟨[1, 2, 3, 0, 0], 3⟩ : simple_stack_vector Int 5)
        (⟨[1, 2, 3, 0, 0, 0, 0, 0], 3⟩ : simple_stack_vector Int 8) = true ∧
    ssv_beq (⟨[1, 2, 3, 0, 0], 3⟩ : simple_stack_vector Int 5)
        (⟨[1, 2, 0, 0, 0, 0, 0, 0], 2⟩ : simple_stack_vector Int 8) = false ∧
    ssv_beq (⟨[1, 2, 3, 0, 0], 3⟩ : simple_stack_vector Int 5)
        (⟨[1, 2, 4, 0, 0, 0, 0, 0], 3⟩ : simple_stack_vector Int 8) = false :=
  ⟨(ssv_beq_iff_sizes_and_elements
        (⟨[1, 2, 3, 0, 0], 3⟩ : simple_stack_vector Int 5)
        (⟨[1, 2, 3, 0, 0, 0, 0, 0], 3⟩ : simple_stack_vector Int 8)).2
      ⟨rfl, by decide⟩,
    by decide, by decide⟩

/-- C9: `clear()` zeroes `size_` and leaves every storage slot untouched;
`pop_back()` under its precondition `0 < size_` decrements `size_` by exactly
one and also leaves every slot untouched; `capacity()` is a static constant of
the type (equal to the template parameter), so no instance operation — clear,
push, pop or resize, all of which return a container of the same type — can
change it. -/
theorem clear_pop_frame_spec {Contained : Type} {Capacity : Nat}
    (v : simple_stack_vector Contained Capacity)
    (hv : v.size_ ≤ Capacity) (hC : Capacity < 2 ^ 64) :
    (v.clear).size_ = 0 ∧ (v.clear).data_ = v.data_ ∧
    (0 < v.size_ →
      (v.pop_back).size_ = v.size_ - 1 ∧ (v.pop_back).data_ = v.data_) ∧
    simple_stack_vector.capacity Contained Capacity = Capacity := by
  refine ⟨rfl, rfl, ?_, rfl⟩
  intro hpos
  have hC64 : Capacity < 18446744073709551616 := by
    have h2 : (2 : Nat) ^ 64 = 18446744073709551616 := by norm_num
    omega
  refine ⟨?_, pop_back_data v⟩
  rw [pop_back_size]
  omega

/-- Witness for C9 on a size-1 capacity-2 container holding 7. -/
theorem clear_pop_frame_witness :
    ((⟨[7, 0], 1⟩ : simple_stack_vector Int 2).clear).size_ = 0 ∧
    ((⟨[7, 0], 1⟩ : simple_stack_vector Int 2).clear).data_ = [7, 0] ∧
    ((0 : Nat) < 1 →
      ((⟨[7, 0], 1⟩ : simple_stack_vector Int 2).pop_back).size_ = 1 - 1 ∧
      ((⟨[7, 0], 1⟩ : simple_stack_vector Int 2).pop_back).data_ = [7, 0]) ∧
    simple_stack_vector.capacity Int 2 = 2 :=
  clear_pop_frame_spec (⟨[7, 0], 1⟩ : simple_stack_vector Int 2)
    (by decide) (by decide)

theorem push_back_ok_size {Contained : Type} [Inhabited Contained]
    {Capacity : Nat} (v : simple_stack_vector Contained Capacity)
    (x : Contained) (v' : simple_stack_vector Contained Capacity)
    (r : Contained) (h : v.push_back x = .ok (v', r)) :
    v.size_ ≠ Capacity ∧ v'.size_ = v.size_ + 1 := by
  unfold simple_stack_vector.push_back at h
  split at h
  · exact absurd h (by simp)
  · next hne =>
    refine ⟨hne, ?_⟩
    simp only [Except.ok.injEq, Prod.mk.injEq] at h
    obtain ⟨h1, -⟩ := h
    rw [← h1]

theorem emplace_back_ok_size {Contained : Type} [Inhabited Contained]
    {Capacity : Nat} (v : simple_stack_vector Contained Capacity)
    (x : Contained) (v' : simple_stack_vector Contained Capacity)
    (r : Contained) (h : v.emplace_back x = .ok (v', r)) :
    v.size_ ≠ Capacity ∧ v'.size_ = v.size_ + 1 := by
  unfold simple_stack_vector.emplace_back at h
  split at h
  · exact absurd h (by simp)
  · next hne =>
    refine ⟨hne, ?_⟩
    simp only [Except.ok.injEq, Prod.mk.injEq] at h
    obtain ⟨h1, -⟩ := h
    rw [← h1]

theorem resize_ok_le {Contained : Type} [Inhabited Contained] {Capacity : Nat}
    (v : simple_stack_vector Contained Capacity) (n : Nat)
    (v' : simple_stack_vector Contained Capacity)
    (hv : v.size_ ≤ Capacity) (h : v.resize n = .ok v') :
    v'.size_ = n ∧ n ≤ Capacity := by
  unfold simple_stack_vector.resize at h
  split at h
  · next hle =>
    simp only [Except.ok.injEq] at h
    exact ⟨by rw [← h], by omega⟩
  · next hgt =>
    split at h
    · exact absurd h (by simp)
    · next hcap =>
      simp only [Except.ok.injEq] at h
      exact ⟨by rw [← h], by omega⟩

theorem reserve_ok_eq {Contained : Type} {Capacity : Nat}
    (v : simple_stack_vector Contained Capacity) (n : Nat)
    (v' : simple_stack_vector Contained Capacity)
    (h : v.reserve n = .ok v') : v' = v := by
  unfold simple_stack_vector.reserve at h
  split at h
  · exact absurd h (by simp)
  · simp only [Except.ok.injEq] at h
    exact h.symm

/-- C2 (intended semantics; the claim is settled as a code bug, see the doc
comment of `simple_stack_vector.resize`: the source growth loop writes
`*old_end = data_type{};`, which is ill-formed and does not compile when
instantiated, `value_type{}` being the documented intent): growing to
`new_size > size_` fails with the capacity-exceeded condition when
`new_size > Capacity`; otherwise each newly-exposed slot in
`[size_, new_size)` afterwards holds a freshly default-constructed value
(stale content such as a previously pushed 5 is erased), the live prefix is
unchanged, and the length becomes `new_size`. -/
theorem resize_growth_default_fills {Contained : Type} [Inhabited Contained]
    {Capacity : Nat} (v : simple_stack_vector Contained Capacity)
    (new_size : Nat) (hwf : v.WF) (hgt : v.size_ < new_size) :
    (Capacity < new_size → v.resize new_size = .error .length_error) ∧
    (new_size ≤ Capacity →
      ∃ v', v.resize new_size = .ok v' ∧ v'.size_ = new_size ∧
        (∀ i, v.size_ ≤ i → i < new_size → v'.opIndex i = default) ∧
        (∀ i, i < v.size_ → v'.opIndex i = v.opIndex i)) := by
  constructor
  · intro h
    unfold simple_stack_vector.resize
    rw [if_neg (by omega), if_pos (by omega)]
  · intro hle
    have hres : v.resize new_size
        = .ok { data_ := simple_stack_vector.setDefaults v.data_ v.size_
                  (new_size - v.size_), size_ := new_size } := by
      unfold simple_stack_vector.resize
      rw [if_neg (by omega), if_neg (by omega)]
    refine ⟨_, hres, rfl, ?_, ?_⟩
    · intro i h1 h2
      simp only [simple_stack_vector.opIndex, List.getD_eq_getElem?_getD,
        setDefaults_getElem?]
      rw [if_pos ⟨h1, by omega, by rw [hwf]; omega⟩]
      rfl
    · intro i hI
      simp only [simple_stack_vector.opIndex, List.getD_eq_getElem?_getD,
        setDefaults_getElem?]
      rw [if_neg (by omega)]

/-- Witness for C2's intended-semantics theorem, the spec scenario: a
capacity-4 integer container whose slot 2 holds a stale 5 with live length 1
resized to 3 exposes default zeros (the 5 is overwritten), keeps the live
prefix, and gets length 3. -/
theorem resize_growth_default_fills_witness :
    ∃ v', (⟨[0, 0, 5, 0], 1⟩ : simple_stack_vector Int 4).resize 3
        = .ok v' ∧ v'.size_ = 3 ∧
      (∀ i, 1 ≤ i → i < 3 → v'.opIndex i = default) ∧
      (∀ i, i < 1 →
        v'.opIndex i
          = (⟨[0, 0, 5, 0], 1⟩ : simple_stack_vector Int 4).opIndex i) :=
  (resize_growth_default_fills (⟨[0, 0, 5, 0], 1⟩ : simple_stack_vector Int 4)
    3 (by decide) (by decide)).2 (by decide)

/-- C6: pushing any sequence of at most `Capacity` values into a
default-constructed container succeeds push by push, `size()` afterwards
equals the number of pushes, and forward iteration (`begin()` to `end()`,
i.e. slots `[0, size_)`) yields exactly the pushed values in push order,
never including stale slots. -/
theorem push_sequence_iterates_in_order {Contained : Type}
    [Inhabited Contained] {Capacity : Nat} (xs : List Contained)
    (h : xs.length ≤ Capacity) :
    ∃ v', simple_stack_vector.push_each
        (simple_stack_vector.mkDefault Contained Capacity) xs = .ok v' ∧
      v'.size_ = xs.length ∧ v'.toListLive = xs := by
  obtain ⟨v', h1, h2, h3, h4⟩ := push_each_ok xs
    (simple_stack_vector.mkDefault Contained Capacity)
    (by simp [simple_stack_vector.WF, simple_stack_vector.mkDefault])
    (by simpa [simple_stack_vector.mkDefault] using h)
  refine ⟨v', h1, ?_, ?_⟩
  · rw [h3]
    simp [simple_stack_vector.mkDefault]
  · rw [h4]
    simp [simple_stack_vector.toListLive, simple_stack_vector.mkDefault]

/-- Witness for C6: pushing [10, 20, 30] into an empty capacity-3 container
succeeds with size 3 and iteration order [10, 20, 30]. -/
theorem push_sequence_witness :
    ∃ v', simple_stack_vector.push_each (simple_stack_vector.mkDefault Int 3)
        [10, 20, 30] = .ok v' ∧ v'.size_ = 3 ∧
      v'.toListLive = [10, 20, 30] := by
  have h := push_sequence_iterates_in_order [(10 : Int), 20, 30]
    (show ([(10 : Int), 20, 30] : List Int).length ≤ 3 by decide)
  simpa using h

/-- C8: `0 ≤ size_ ≤ Capacity` holds of a default-constructed container and
is preserved by every operation: `push_back`, `emplace_back`, `pop_back`
under its precondition `0 < size_`, `clear`, `resize`, `reserve`,
`shrink_to_fit`.  A failing operation returns only the error — each throw
precedes any mutation — so the unchanged state keeps the invariant.  Both
boundary states are reachable: `size_ = 0` by default construction and
`size_ = Capacity` by `Capacity` successful pushes; every operation is a
total function of the state, so all remain available at the boundaries. -/
theorem length_invariant_preserved {Contained : Type} [Inhabited Contained]
    {Capacity : Nat} (v : simple_stack_vector Contained Capacity)
    (hC : Capacity < 2 ^ 64) (hv : v.size_ ≤ Capacity) :
    (simple_stack_vector.mkDefault Contained Capacity).size_ ≤ Capacity ∧
    (∀ x v' r, v.push_back x = .ok (v', r) → v'.size_ ≤ Capacity) ∧
    (∀ x v' r, v.emplace_back x = .ok (v', r) → v'.size_ ≤ Capacity) ∧
    (0 < v.size_ → (v.pop_back).size_ ≤ Capacity) ∧
    (v.clear).size_ ≤ Capacity ∧
    (∀ n v', v.resize n = .ok v' → v'.size_ ≤ Capacity) ∧
    (∀ n v', v.reserve n = .ok v' → v'.size_ ≤ Capacity) ∧
    (v.shrink_to_fit).size_ ≤ Capacity ∧
    (∃ w, simple_stack_vector.push_each
        (simple_stack_vector.mkDefault Contained Capacity)
        (List.replicate Capacity default) = .ok w ∧ w.size_ = Capacity) := by
  have hC64 : Capacity < 18446744073709551616 := by
    have h2 : (2 : Nat) ^ 64 = 18446744073709551616 := by norm_num
    omega
  refine ⟨Nat.zero_le _, ?_, ?_, ?_, Nat.zero_le _, ?_, ?_, hv, ?_⟩
  · intro x v' r h
    obtain ⟨hne, hsz⟩ := push_back_ok_size v x v' r h
    omega
  · intro x v' r h
    obtain ⟨hne, hsz⟩ := emplace_back_ok_size v x v' r h
    omega
  · intro hpos
    rw [pop_back_size]
    omega
  · intro n v' h
    obtain ⟨hsz, hle⟩ := resize_ok_le v n v' hv h
    omega
  · intro n v' h
    rw [reserve_ok_eq v n v' h]
    exact hv
  · obtain ⟨w, h1, h2, h3, h4⟩ := push_each_ok
      (List.replicate Capacity (default : Contained))
      (simple_stack_vector.mkDefault Contained Capacity)
      (by simp [simple_stack_vector.WF, simple_stack_vector.mkDefault])
      (by simp [simple_stack_vector.mkDefault])
    refine ⟨w, h1, ?_⟩
    rw [h3]
    simp [simple_stack_vector.mkDefault]

/-- Witness for C8 on a size-1 capacity-2 container: the default container
respects the bound and `clear` keeps it. -/
theorem length_invariant_witness :
    (simple_stack_vector.mkDefault Int 2).size_ ≤ 2 ∧
    ((⟨[7, 0], 1⟩ : simple_stack_vector Int 2).clear).size_ ≤ 2 :=
  ⟨(length_invariant_preserved (⟨[7, 0], 1⟩ : simple_stack_vector Int 2)
      (by decide) (by decide)).1,
    (length_invariant_preserved (⟨[7, 0], 1⟩ : simple_stack_vector Int 2)
      (by decide) (by decide)).2.2.2.2.1⟩
